import Mathlib

/-!
Verification of the queue core of the distributed-job-queue server.

The definitions below are a shallow embedding of
`src/server/src/queue/jobStore.js` (class `JobStore`, class `Scheduler`) and
`src/server/src/queue/queueManager.js` (class `QueueManager`).

Modelling conventions:
* JavaScript numbers that hold timestamps, counters and sizes are `Nat`.
* `Date.now()` is passed in explicitly as a `now` argument at every call that
  reads the clock; `process.env` configuration (`QUEUE_MAX_SIZE`,
  `RETRY_BACKOFF_BASE_MS`, resolved `maxAttempts`) is passed as parameters.
* `uuidv4()` is modelled as an explicitly supplied fresh identifier.
* A JS `Map` is an insertion-ordered association list; a JS `Set` is an
  insertion-ordered duplicate-free list (`setAdd` / `setDelete` mirror
  `Set.prototype.add` / `delete`).
* A function that can `throw` returns `Except QErr Job × JobStore`: the store
  component is the state of `this.store` when the function returns or throws
  (mutation in the JS code is sequential, so the store at a `throw` point is
  whatever had been written before it).
* `QErr.typeError` stands for the JS `TypeError` raised by dereferencing
  `null` (e.g. `this.getJob(jobId).attempts` when the job is absent).
-/

namespace JobQueue

/-- Job lifecycle states, the keys of `jobsByStatus` in jobStore.js. -/
inductive Status where
  | PENDING
  | RUNNING
  | COMPLETED
  | FAILED
  | RETRYING
  | DEAD
  deriving DecidableEq, Repr

/-- A job record as built by `JobStore.createJob` (jobStore.js lines 39-50);
`retryAt` starts out absent and is first written by `markJobRetrying`. -/
structure Job where
  id : Nat
  type : String
  payload : String
  status : Status
  attempts : Nat
  maxAttempts : Nat
  createdAt : Nat
  startedAt : Option Nat
  finishedAt : Option Nat
  error : Option String
  retryAt : Option Nat
  deriving DecidableEq, Repr

/-- Errors thrown by the queue core.  `queueFull` is
"Queue is at maximum capacity", `jobNotFound` is "Job ... not found",
`alreadyRunning` is "Job ... is already running", and `typeError` is the JS
`TypeError` from reading a property of `null`. -/
inductive QErr where
  | queueFull
  | jobNotFound (jobId : Nat)
  | alreadyRunning (jobId : Nat)
  | typeError
  deriving DecidableEq, Repr

/-- The `jobsByStatus` record of jobStore.js: one JS `Set` of job ids per
status, modelled as insertion-ordered duplicate-free lists. -/
structure StatusSets where
  pending : List Nat
  running : List Nat
  completed : List Nat
  failed : List Nat
  retrying : List Nat
  dead : List Nat
  deriving DecidableEq, Repr

/-- Read the id set of one status, `this.jobsByStatus[status]`. -/
def StatusSets.get (b : StatusSets) : Status → List Nat
  | .PENDING => b.pending
  | .RUNNING => b.running
  | .COMPLETED => b.completed
  | .FAILED => b.failed
  | .RETRYING => b.retrying
  | .DEAD => b.dead

/-- Replace the id set of one status. -/
def StatusSets.set (b : StatusSets) : Status → List Nat → StatusSets
  | .PENDING, l => { b with pending := l }
  | .RUNNING, l => { b with running := l }
  | .COMPLETED, l => { b with completed := l }
  | .FAILED, l => { b with failed := l }
  | .RETRYING, l => { b with retrying := l }
  | .DEAD, l => { b with dead := l }

/-- `Set.prototype.add`: append the element unless it is already present. -/
def setAdd (l : List Nat) (x : Nat) : List Nat :=
  if x ∈ l then l else l ++ [x]

/-- `Set.prototype.delete`: remove the element. -/
def setDelete (l : List Nat) (x : Nat) : List Nat :=
  l.filter (· != x)

/-- `Map.prototype.get` over an insertion-ordered association list. -/
def lookupJob : List (Nat × Job) → Nat → Option Job
  | [], _ => none
  | (k, j) :: rest, jobId => if k = jobId then some j else lookupJob rest jobId

/-- In-place mutation of the job object stored under an existing key
(the JS code mutates the object held by the `Map`, keeping its position). -/
def updateEntry (m : List (Nat × Job)) (k : Nat) (v : Job) : List (Nat × Job) :=
  m.map (fun p => if p.1 = k then (k, v) else p)

/-- `Map.prototype.set`: overwrite in place if the key exists, else append. -/
def insertEntry (m : List (Nat × Job)) (k : Nat) (v : Job) : List (Nat × Job) :=
  if (lookupJob m k).isSome then updateEntry m k v else m ++ [(k, v)]

/-- The `JobStore` state: the `jobs` map, the `jobsByStatus` sets, and the
configured `maxQueueSize` (`QUEUE_MAX_SIZE`, default 10000). -/
structure JobStore where
  jobs : List (Nat × Job)
  byStatus : StatusSets
  maxQueueSize : Nat
  deriving DecidableEq, Repr

/-- The empty `jobsByStatus` record built by the `JobStore` constructor. -/
def emptyStatusSets : StatusSets :=
  ⟨[], [], [], [], [], []⟩

/-- A freshly constructed `JobStore` with the given capacity. -/
def emptyStore (maxSize : Nat) : JobStore :=
  { jobs := [], byStatus := emptyStatusSets, maxQueueSize := maxSize }

/-- `JobStore.getJob`: `this.jobs.get(jobId) || null`. -/
def JobStore.getJob (s : JobStore) (jobId : Nat) : Option Job :=
  lookupJob s.jobs jobId

/-- The `updates` object passed to `updateJobStatus`; a field holds `some v`
exactly when the JS object literal carries that property. -/
structure JobUpdates where
  attempts : Option Nat := none
  startedAt : Option (Option Nat) := none
  finishedAt : Option (Option Nat) := none
  error : Option (Option String) := none
  retryAt : Option (Option Nat) := none
  deriving DecidableEq, Repr

/-- `job.status = newStatus; Object.assign(job, updates)`. -/
def applyUpdates (j : Job) (newStatus : Status) (u : JobUpdates) : Job :=
  { j with
    status := newStatus
    attempts := u.attempts.getD j.attempts
    startedAt := u.startedAt.getD j.startedAt
    finishedAt := u.finishedAt.getD j.finishedAt
    error := u.error.getD j.error
    retryAt := u.retryAt.getD j.retryAt }

/-- `JobStore.updateJobStatus` (jobStore.js lines 73-90): throws
`Job ... not found` when the id is unknown, otherwise removes the id from the
old status set, mutates the job, and adds the id to the new status set. -/
def JobStore.updateJobStatus (s : JobStore) (jobId : Nat) (newStatus : Status)
    (u : JobUpdates) : Except QErr Job × JobStore :=
  match s.getJob jobId with
  | none => (.error (.jobNotFound jobId), s)
  | some job =>
    let job' := applyUpdates job newStatus u
    let b1 := s.byStatus.set job.status (setDelete (s.byStatus.get job.status) jobId)
    let b2 := b1.set newStatus (setAdd (b1.get newStatus) jobId)
    (.ok job', { s with jobs := updateEntry s.jobs jobId job', byStatus := b2 })

/-- `JobStore.markJobStarted` (jobStore.js lines 96-101).  The JS code builds
the updates object by evaluating `this.getJob(jobId).attempts + 1` BEFORE
calling `updateJobStatus`; on an absent job this dereferences `null` and
throws a `TypeError`, so `updateJobStatus` is never reached. -/
def JobStore.markJobStarted (s : JobStore) (jobId now : Nat) :
    Except QErr Job × JobStore :=
  match s.getJob jobId with
  | none => (.error .typeError, s)
  | some job =>
    s.updateJobStatus jobId .RUNNING
      { startedAt := some (some now), attempts := some (job.attempts + 1) }

/-- `JobStore.markJobCompleted` (jobStore.js lines 107-111). -/
def JobStore.markJobCompleted (s : JobStore) (jobId now : Nat) :
    Except QErr Job × JobStore :=
  s.updateJobStatus jobId .COMPLETED { finishedAt := some (some now) }

/-- `JobStore.markJobFailed` (jobStore.js lines 118-133): reads
`job.attempts` (a `TypeError` on an absent job), then transitions to DEAD when
`attempts >= maxAttempts` and to FAILED otherwise. -/
def JobStore.markJobFailed (s : JobStore) (jobId : Nat) (msg : String) (now : Nat) :
    Except QErr Job × JobStore :=
  match s.getJob jobId with
  | none => (.error .typeError, s)
  | some job =>
    if job.attempts ≥ job.maxAttempts then
      s.updateJobStatus jobId .DEAD
        { finishedAt := some (some now), error := some (some msg) }
    else
      s.updateJobStatus jobId .FAILED { error := some (some msg) }

/-- `JobStore.markJobRetrying` (jobStore.js lines 140-144). -/
def JobStore.markJobRetrying (s : JobStore) (jobId retryAt : Nat) :
    Except QErr Job × JobStore :=
  s.updateJobStatus jobId .RETRYING { retryAt := some (some retryAt) }

/-- `JobStore.getJobsByStatus` (jobStore.js lines 151-154):
`jobIds.map(id => this.jobs.get(id)).filter(Boolean)`. -/
def JobStore.getJobsByStatus (s : JobStore) (status : Status) : List Job :=
  (s.byStatus.get status).filterMap s.getJob

/-- The RETRYING filter of `getJobsReadyForExecution`:
`job.retryAt && job.retryAt <= now` with JS truthiness (absent and `0` are
both falsy). -/
def retryEligible (now : Nat) (j : Job) : Bool :=
  match j.retryAt with
  | none => false
  | some t => t != 0 && decide (t ≤ now)

/-- `JobStore.getJobsReadyForExecution` (jobStore.js lines 160-175): all
PENDING jobs followed by the RETRYING jobs whose delay has elapsed. -/
def JobStore.getJobsReadyForExecution (s : JobStore) (now : Nat) : List Job :=
  s.getJobsByStatus .PENDING
    ++ (s.getJobsByStatus .RETRYING).filter (retryEligible now)

/-- `JobStore.isJobRunning` (jobStore.js lines 199-202):
`job && job.status === 'RUNNING'`. -/
def JobStore.isJobRunning (s : JobStore) (jobId : Nat) : Bool :=
  match s.getJob jobId with
  | none => false
  | some job => job.status == .RUNNING

/-- The job object literal of `JobStore.createJob` (jobStore.js lines 39-50).
`maxAttempts` is the resolved value of
`options.maxAttempts || parseInt(process.env.MAX_JOB_ATTEMPTS || '3', 10)`. -/
def newJob (newId : Nat) (ty pl : String) (maxAttempts now : Nat) : Job :=
  { id := newId
    type := ty
    payload := pl
    status := .PENDING
    attempts := 0
    maxAttempts := maxAttempts
    createdAt := now
    startedAt := none
    finishedAt := none
    error := none
    retryAt := none }

/-- `JobStore.createJob` (jobStore.js lines 33-56): throws
`Queue is at maximum capacity` when `this.jobs.size >= this.maxQueueSize`,
otherwise inserts the new PENDING job and registers its id. -/
def JobStore.createJob (s : JobStore) (newId : Nat) (ty pl : String)
    (maxAttempts now : Nat) : Except QErr Job × JobStore :=
  if s.jobs.length ≥ s.maxQueueSize then
    (.error .queueFull, s)
  else
    let job := newJob newId ty pl maxAttempts now
    (.ok job,
      { s with
        jobs := insertEntry s.jobs newId job
        byStatus := s.byStatus.set .PENDING (setAdd (s.byStatus.get .PENDING) newId) })

/-- `QueueManager.calculateRetryDelay` (queueManager.js lines 120-123):
`baseDelay * Math.pow(2, attempts)` with `baseDelay` from
`RETRY_BACKOFF_BASE_MS` (default 1000). -/
def calculateRetryDelay (baseDelay attempts : Nat) : Nat :=
  baseDelay * 2 ^ attempts

/-- `QueueManager.createJob` (queueManager.js lines 22-36): delegates to the
store; the catch block only logs and rethrows, so the state effect and result
are those of `JobStore.createJob`. -/
def QueueManager.createJob (s : JobStore) (newId : Nat) (ty pl : String)
    (maxAttempts now : Nat) : Except QErr Job × JobStore :=
  s.createJob newId ty pl maxAttempts now

/-- `QueueManager.startJob` (queueManager.js lines 53-62): throws
`Job ... is already running` when `isJobRunning`, else `markJobStarted`. -/
def QueueManager.startJob (s : JobStore) (jobId now : Nat) :
    Except QErr Job × JobStore :=
  if s.isJobRunning jobId then
    (.error (.alreadyRunning jobId), s)
  else
    s.markJobStarted jobId now

/-- `QueueManager.completeJob` (queueManager.js lines 69-73). -/
def QueueManager.completeJob (s : JobStore) (jobId now : Nat) :
    Except QErr Job × JobStore :=
  s.markJobCompleted jobId now

/-- `QueueManager.failJob` (queueManager.js lines 82-112): throws
`Job ... not found` on an absent id; when `attempts < maxAttempts` it marks
the job FAILED and then RETRYING with `retryAt = now + retryDelay`; otherwise
it marks the job failed, which the store turns into DEAD. -/
def QueueManager.failJob (s : JobStore) (jobId : Nat) (msg : String)
    (now baseDelay : Nat) : Except QErr Job × JobStore :=
  match s.getJob jobId with
  | none => (.error (.jobNotFound jobId), s)
  | some job =>
    if job.attempts < job.maxAttempts then
      match s.markJobFailed jobId msg now with
      | (.error e, s1) => (.error e, s1)
      | (.ok _, s1) =>
        s1.markJobRetrying jobId (now + calculateRetryDelay baseDelay job.attempts)
    else
      s.markJobFailed jobId msg now

deriving instance DecidableEq for Except

/-!
Reachable stores.  The queue is driven by the HTTP submitter
(`QueueManager.createJob`) and by `Scheduler.poll` / `Scheduler.dispatchJob`
(jobStore.js lines 259-328): the scheduler dispatches only jobs returned by
`getJobsReadyForExecution` (status PENDING or RETRYING), and it calls
`completeJob` / `failJob` only for the job it has just moved to RUNNING (the
in-flight set keeps a second dispatch of the same id from interleaving, and
the JS event loop runs each synchronous section atomically).  `uuidv4()` ids
are assumed fresh, and the resolved `maxAttempts`
(`options.maxAttempts || parseInt(process.env.MAX_JOB_ATTEMPTS || '3', 10)`)
is positive because `||` replaces a falsy `0` by the default 3.
-/

/-- One observable mutation of the store, as issued by the API or the
scheduler (see the section comment for the provenance of each guard). -/
inductive Step : JobStore → JobStore → Prop where
  | create (s : JobStore) (newId : Nat) (ty pl : String) (ma now : Nat)
      (j : Job) (s' : JobStore)
      (hfresh : s.getJob newId = none) (hma : 1 ≤ ma)
      (heq : QueueManager.createJob s newId ty pl ma now = (.ok j, s')) :
      Step s s'
  | start (s : JobStore) (jobId now : Nat) (job j : Job) (s' : JobStore)
      (hget : s.getJob jobId = some job)
      (hready : job.status = .PENDING ∨ job.status = .RETRYING)
      (heq : QueueManager.startJob s jobId now = (.ok j, s')) :
      Step s s'
  | complete (s : JobStore) (jobId now : Nat) (job j : Job) (s' : JobStore)
      (hget : s.getJob jobId = some job)
      (hrun : job.status = .RUNNING)
      (heq : QueueManager.completeJob s jobId now = (.ok j, s')) :
      Step s s'
  | fail (s : JobStore) (jobId : Nat) (msg : String) (now baseDelay : Nat)
      (job j : Job) (s' : JobStore)
      (hget : s.getJob jobId = some job)
      (hrun : job.status = .RUNNING)
      (heq : QueueManager.failJob s jobId msg now baseDelay = (.ok j, s')) :
      Step s s'

/-- Stores reachable from a freshly constructed `JobStore`. -/
def Reachable (maxSize : Nat) (s : JobStore) : Prop :=
  Relation.ReflTransGen Step (emptyStore maxSize) s

/-- The per-job invariant maintained by the reachable states. -/
def JobInv (j : Job) : Prop :=
  1 ≤ j.maxAttempts ∧
  j.attempts ≤ j.maxAttempts ∧
  (j.status = .PENDING → j.attempts = 0) ∧
  (j.status = .PENDING ∨ j.status = .RETRYING → j.attempts < j.maxAttempts) ∧
  (j.status = .DEAD → j.attempts = j.maxAttempts)

/-- Every job held by the store satisfies `JobInv`. -/
def StoreInv (s : JobStore) : Prop :=
  ∀ k j, s.getJob k = some j → JobInv j

/-!
The scheduler's in-flight discipline (jobStore.js lines 259-328).  A dispatch
of a job id passes through two observable phases: from the synchronous block
`activeExecutions.add(job.id); startJob(job.id)` (no `await` separates the
`poll` membership test from these) until its `executeJob` promise settles,
and from the `completeJob` / `failJob` call until the `finally` block removes
the id from `activeExecutions`.  `poll` skips any id already in
`activeExecutions`.
-/

/-- Phase of one in-progress dispatch: still executing, or settled
(`completeJob` / `failJob` has run) but not yet removed in `finally`. -/
inductive DPhase where
  | exec
  | settled
  deriving DecidableEq, Repr

/-- Scheduler state: the `activeExecutions` set and the dispatches currently
in progress (id and phase, most recent first). -/
structure SchedState where
  active : List Nat
  dispatches : List (Nat × DPhase)
  deriving DecidableEq, Repr

/-- Interleaved steps of `poll` / `dispatchJob`. -/
inductive SchedStep : SchedState → SchedState → Prop where
  | dispatchBegin (σ : SchedState) (jobId : Nat) (h : jobId ∉ σ.active) :
      SchedStep σ ⟨setAdd σ.active jobId, (jobId, .exec) :: σ.dispatches⟩
  | dispatchSettle (active : List Nat) (l r : List (Nat × DPhase)) (jobId : Nat) :
      SchedStep ⟨active, l ++ (jobId, .exec) :: r⟩
        ⟨active, l ++ (jobId, .settled) :: r⟩
  | dispatchFinish (active : List Nat) (l r : List (Nat × DPhase)) (jobId : Nat) :
      SchedStep ⟨active, l ++ (jobId, .settled) :: r⟩
        ⟨setDelete active jobId, l ++ r⟩

/-- Scheduler states reachable from the idle scheduler. -/
def SchedReachable (σ : SchedState) : Prop :=
  Relation.ReflTransGen SchedStep ⟨[], []⟩ σ

/-- Scheduler invariant: every in-progress dispatch is registered in
`activeExecutions`, and no two dispatches share an id. -/
def SchedInv (σ : SchedState) : Prop :=
  (∀ p ∈ σ.dispatches, (p : Nat × DPhase).1 ∈ σ.active) ∧
  (σ.dispatches.map Prod.fst).Nodup

/-- All six statuses (for finite quantification over `Status`). -/
def allStatuses : List Status :=
  [.PENDING, .RUNNING, .COMPLETED, .FAILED, .RETRYING, .DEAD]

/-- Store well-formedness (the spec's "every job is in exactly one status
bucket"): keys agree with the stored `id` field, every bucketed id holds a
job of that bucket's status, and every job's id is in its status bucket. -/
def WFStore (s : JobStore) : Prop :=
  (∀ p ∈ s.jobs, (p : Nat × Job).2.id = p.1) ∧
  (∀ st ∈ allStatuses, ∀ id ∈ s.byStatus.get st,
    (s.getJob id).map Job.status = some st) ∧
  (∀ p ∈ s.jobs, (p : Nat × Job).1 ∈ s.byStatus.get (p.2.status))

/-- Every RETRYING job carries a positive `retryAt` (as `markJobRetrying`
always writes `Date.now() + retryDelay > 0`). -/
def RetryTimesPos (s : JobStore) : Prop :=
  ∀ p ∈ s.jobs, (p : Nat × Job).2.status = .RETRYING → 0 < (p.2.retryAt).getD 0

instance (s : JobStore) : Decidable (WFStore s) := by
  unfold WFStore
  infer_instance

instance (s : JobStore) : Decidable (RetryTimesPos s) := by
  unfold RetryTimesPos
  infer_instance

/-- Adjacent-pair comparison of the claimed FIFO order: by `createdAt`,
ties broken by `id`. -/
def fifoLe (a b : Job) : Bool :=
  decide (a.createdAt < b.createdAt)
    || (a.createdAt == b.createdAt && decide (a.id ≤ b.id))

/-- A job list is in the claimed FIFO order when every adjacent pair is. -/
def fifoOrdered : List Job → Bool
  | [] => true
  | [_] => true
  | a :: b :: rest => fifoLe a b && fifoOrdered (b :: rest)

/-!
Concrete scenario used by several counterexamples and witnesses: job 1 is
created at time 0, job 2 at time 5; job 1 is started at time 10 and fails at
time 11 (backoff base 1000 ms), leaving job 1 RETRYING with
`retryAt = 11 + 1000 * 2 ^ 1 = 2011` and job 2 still PENDING.
-/

/-- Result of creating job 1 in an empty store of capacity 100. -/
def c8r1 : Except QErr Job × JobStore :=
  QueueManager.createJob (emptyStore 100) 1 "SEND_EMAIL" "payload-a" 3 0

/-- Store holding job 1 (PENDING). -/
def c8s1 : JobStore := c8r1.2

/-- Result of creating job 2 at time 5. -/
def c8r2 : Except QErr Job × JobStore :=
  QueueManager.createJob c8s1 2 "SEND_EMAIL" "payload-b" 3 5

/-- Store holding jobs 1 and 2 (both PENDING). -/
def c8s2 : JobStore := c8r2.2

/-- Result of starting job 1 at time 10. -/
def c8r3 : Except QErr Job × JobStore := QueueManager.startJob c8s2 1 10

/-- Store with job 1 RUNNING (attempts 1) and job 2 PENDING. -/
def c8s3 : JobStore := c8r3.2

/-- Result of job 1 failing at time 11 with backoff base 1000. -/
def c8r4 : Except QErr Job × JobStore :=
  QueueManager.failJob c8s3 1 "smtp timeout" 11 1000

/-- Store with job 1 RETRYING (`retryAt` 2011) and job 2 PENDING. -/
def c8s4 : JobStore := c8r4.2

/-- Job 1 as held by `c8s4`: RETRYING, created before job 2, started at 10. -/
def c9jobBefore : Job :=
  { id := 1
    type := "SEND_EMAIL"
    payload := "payload-a"
    status := .RETRYING
    attempts := 1
    maxAttempts := 3
    createdAt := 0
    startedAt := some 10
    finishedAt := none
    error := some "smtp timeout"
    retryAt := some 2011 }

/-- Job 2 as held by `c8s4`: still PENDING, created at time 5. -/
def c8jobPending : Job :=
  { id := 2
    type := "SEND_EMAIL"
    payload := "payload-b"
    status := .PENDING
    attempts := 0
    maxAttempts := 3
    createdAt := 5
    startedAt := none
    finishedAt := none
    error := none
    retryAt := none }

/-- Job 1 of `c8s3` (RUNNING, one attempt made) for the failJob witnesses. -/
def c2jobRunning : Job :=
  { id := 1
    type := "SEND_EMAIL"
    payload := "payload-a"
    status := .RUNNING
    attempts := 1
    maxAttempts := 3
    createdAt := 0
    startedAt := some 10
    finishedAt := none
    error := none
    retryAt := none }

/-!
Concrete terminal-state scenario: a job with `maxAttempts = 1` is created,
started, and fails, ending DEAD.
-/

/-- Result of creating the one-attempt job. -/
def c3r1 : Except QErr Job × JobStore :=
  QueueManager.createJob (emptyStore 10) 1 "SEND_EMAIL" "payload-c" 1 0

/-- Store holding the one-attempt job (PENDING). -/
def c3s1 : JobStore := c3r1.2

/-- Result of starting the one-attempt job at time 10. -/
def c3r2 : Except QErr Job × JobStore := QueueManager.startJob c3s1 1 10

/-- Store with the one-attempt job RUNNING. -/
def c3s2 : JobStore := c3r2.2

/-- Result of the one-attempt job failing at time 20. -/
def c3r3 : Except QErr Job × JobStore :=
  QueueManager.failJob c3s2 1 "boom" 20 1000

/-- Store whose only job is DEAD (terminal). -/
def c3sDead : JobStore := c3r3.2

/-- The DEAD job held by `c3sDead`. -/
def c3deadJob : Job :=
  { id := 1
    type := "SEND_EMAIL"
    payload := "payload-c"
    status := .DEAD
    attempts := 1
    maxAttempts := 1
    createdAt := 0
    startedAt := some 10
    finishedAt := some 20
    error := some "boom"
    retryAt := none }

/-- The PENDING job of the single-create reachability witness. -/
def w4job : Job := newJob 1 "SEND_EMAIL" "payload-w" 3 5

/-- Store reached from `emptyStore 10` by one `createJob` step. -/
def w4store : JobStore :=
  (QueueManager.createJob (emptyStore 10) 1 "SEND_EMAIL" "payload-w" 3 5).2

/-- Scheduler state after one dispatch has begun for job id 5. -/
def w5state : SchedState := ⟨setAdd [] 5, [(5, DPhase.exec)]⟩

/-! Lemmas about the association-list operations. -/

theorem lookupJob_cons (a : Nat) (b : Job) (rest : List (Nat × Job)) (k : Nat) :
    lookupJob ((a, b) :: rest) k = if a = k then some b else lookupJob rest k :=
  rfl

theorem updateEntry_cons (a : Nat) (b : Job) (rest : List (Nat × Job)) (k : Nat) (v : Job) :
    updateEntry ((a, b) :: rest) k v
      = (if a = k then (k, v) else (a, b)) :: updateEntry rest k v :=
  rfl

theorem lookupJob_updateEntry : ∀ (m : List (Nat × Job)) (k : Nat) (v : Job) (k' : Nat),
    lookupJob (updateEntry m k v) k' =
      if k' = k then (lookupJob m k).map (fun _ => v) else lookupJob m k'
  | [], k, v, k' => by
    simp [updateEntry, lookupJob]
  | (a, b) :: rest, k, v, k' => by
    have ih := lookupJob_updateEntry rest k v k'
    rw [updateEntry_cons]
    by_cases hak : a = k
    · rw [if_pos hak]
      by_cases hkk : k' = k
      · simp only [lookupJob_cons, if_pos hak, if_pos hkk, if_pos hkk.symm]
        rfl
      · simp only [lookupJob_cons, if_pos hak, if_neg hkk,
          if_neg (fun h : k = k' => hkk h.symm),
          if_neg (fun h : a = k' => hkk (h.symm.trans hak)), ih]
    · rw [if_neg hak]
      by_cases hk' : a = k'
      · simp only [lookupJob_cons, if_pos hk',
          if_neg (fun h : k' = k => hak (hk'.trans h))]
      · simp only [lookupJob_cons, if_neg hak, if_neg hk', ih]

theorem lookupJob_append : ∀ (m1 m2 : List (Nat × Job)) (k : Nat),
    lookupJob (m1 ++ m2) k = (lookupJob m1 k).or (lookupJob m2 k)
  | [], m2, k => rfl
  | (a, b) :: rest, m2, k => by
    rw [List.cons_append, lookupJob_cons, lookupJob_cons]
    by_cases h : a = k
    · rw [if_pos h, if_pos h]
      rfl
    · rw [if_neg h, if_neg h, lookupJob_append rest m2 k]

theorem lookupJob_insertEntry (m : List (Nat × Job)) (k : Nat) (v : Job) (k' : Nat) :
    lookupJob (insertEntry m k v) k' = if k' = k then some v else lookupJob m k' := by
  unfold insertEntry
  by_cases hp : (lookupJob m k).isSome
  · rw [if_pos hp, lookupJob_updateEntry]
    by_cases hk : k' = k
    · rw [if_pos hk, if_pos hk]
      obtain ⟨j, hj⟩ := Option.isSome_iff_exists.mp hp
      rw [hj]
      rfl
    · rw [if_neg hk, if_neg hk]
  · rw [if_neg hp, lookupJob_append]
    have hnone : lookupJob m k = none := Option.not_isSome_iff_eq_none.mp hp
    by_cases hk : k' = k
    · rw [if_pos hk, hk, hnone, lookupJob_cons, if_pos rfl]
      rfl
    · rw [if_neg hk, lookupJob_cons, if_neg (fun h => hk h.symm)]
      cases hx : lookupJob m k' <;> rfl

theorem lookupJob_mem : ∀ (m : List (Nat × Job)) (k : Nat) (j : Job),
    lookupJob m k = some j → (k, j) ∈ m
  | [], k, j => by
    intro h
    exact absurd h (by simp [lookupJob])
  | (a, b) :: rest, k, j => by
    rw [lookupJob_cons]
    by_cases h : a = k
    · subst h
      rw [if_pos rfl]
      intro hj
      injection hj with hj
      subst hj
      exact List.mem_cons_self _ _
    · rw [if_neg h]
      intro hj
      exact List.mem_cons_of_mem _ (lookupJob_mem rest k j hj)

/-! Specifications of the store and manager operations on a present job. -/

theorem updateJobStatus_spec (s : JobStore) (jobId : Nat) (st : Status) (u : JobUpdates)
    (job : Job) (h : s.getJob jobId = some job) :
    ∃ s', s.updateJobStatus jobId st u = (.ok (applyUpdates job st u), s') ∧
      ∀ k, s'.getJob k = if k = jobId then some (applyUpdates job st u) else s.getJob k := by
  unfold JobStore.updateJobStatus
  rw [h]
  refine ⟨_, rfl, ?_⟩
  intro k
  have hlk : lookupJob s.jobs jobId = some job := h
  simp only [JobStore.getJob]
  rw [lookupJob_updateEntry, hlk]
  by_cases hk : k = jobId
  · rw [if_pos hk, if_pos hk]
    rfl
  · rw [if_neg hk, if_neg hk]

theorem startJob_spec (s : JobStore) (jobId now : Nat) (job : Job)
    (h : s.getJob jobId = some job) (hs : job.status ≠ .RUNNING) :
    ∃ j' s', QueueManager.startJob s jobId now = (.ok j', s') ∧
      j'.status = .RUNNING ∧ j'.attempts = job.attempts + 1 ∧ j'.startedAt = some now ∧
      j'.maxAttempts = job.maxAttempts ∧ j'.id = job.id ∧ j'.createdAt = job.createdAt ∧
      j'.retryAt = job.retryAt ∧ j'.finishedAt = job.finishedAt ∧
      ∀ k, s'.getJob k = if k = jobId then some j' else s.getJob k := by
  have hrun : s.isJobRunning jobId = false := by
    unfold JobStore.isJobRunning
    rw [h]
    simp [hs]
  obtain ⟨s', heq, hget⟩ := updateJobStatus_spec s jobId .RUNNING
    { startedAt := some (some now), attempts := some (job.attempts + 1) } job h
  refine ⟨applyUpdates job .RUNNING
    { startedAt := some (some now), attempts := some (job.attempts + 1) },
    s', ?_, rfl, rfl, rfl, rfl, rfl, rfl, rfl, rfl, hget⟩
  unfold QueueManager.startJob
  rw [hrun]
  show s.markJobStarted jobId now = _
  have keyms : s.markJobStarted jobId now = s.updateJobStatus jobId .RUNNING
      { startedAt := some (some now), attempts := some (job.attempts + 1) } := by
    unfold JobStore.markJobStarted
    rw [h]
  rw [keyms]
  exact heq

theorem completeJob_spec (s : JobStore) (jobId now : Nat) (job : Job)
    (h : s.getJob jobId = some job) :
    ∃ j' s', QueueManager.completeJob s jobId now = (.ok j', s') ∧
      j'.status = .COMPLETED ∧ j'.finishedAt = some now ∧
      j'.attempts = job.attempts ∧ j'.maxAttempts = job.maxAttempts ∧
      ∀ k, s'.getJob k = if k = jobId then some j' else s.getJob k := by
  obtain ⟨s', heq, hget⟩ := updateJobStatus_spec s jobId .COMPLETED
    { finishedAt := some (some now) } job h
  exact ⟨_, s', heq, rfl, rfl, rfl, rfl, hget⟩

theorem failJob_spec (s : JobStore) (jobId : Nat) (msg : String) (now baseDelay : Nat)
    (job : Job) (h : s.getJob jobId = some job) :
    ∃ j' s', QueueManager.failJob s jobId msg now baseDelay = (.ok j', s') ∧
      j'.attempts = job.attempts ∧ j'.maxAttempts = job.maxAttempts ∧
      j'.startedAt = job.startedAt ∧ j'.id = job.id ∧ j'.createdAt = job.createdAt ∧
      (job.attempts < job.maxAttempts →
        j'.status = .RETRYING ∧
        j'.retryAt = some (now + calculateRetryDelay baseDelay job.attempts)) ∧
      (job.maxAttempts ≤ job.attempts → j'.status = .DEAD ∧ j'.finishedAt = some now) ∧
      ∀ k, s'.getJob k = if k = jobId then some j' else s.getJob k := by
  have key : QueueManager.failJob s jobId msg now baseDelay =
      (if job.attempts < job.maxAttempts then
        match s.markJobFailed jobId msg now with
        | (.error e, s1) => (.error e, s1)
        | (.ok _, s1) =>
          s1.markJobRetrying jobId (now + calculateRetryDelay baseDelay job.attempts)
      else s.markJobFailed jobId msg now) := by
    unfold QueueManager.failJob
    rw [h]
  have keyf : s.markJobFailed jobId msg now =
      (if job.attempts ≥ job.maxAttempts then
        s.updateJobStatus jobId .DEAD
          { finishedAt := some (some now), error := some (some msg) }
      else s.updateJobStatus jobId .FAILED { error := some (some msg) }) := by
    unfold JobStore.markJobFailed
    rw [h]
  by_cases hlt : job.attempts < job.maxAttempts
  · obtain ⟨s1, heq1, hget1⟩ := updateJobStatus_spec s jobId .FAILED
      { error := some (some msg) } job h
    have hj1get : s1.getJob jobId = some (applyUpdates job .FAILED { error := some (some msg) }) := by
      rw [hget1 jobId, if_pos rfl]
    obtain ⟨s2, heq2, hget2⟩ := updateJobStatus_spec s1 jobId .RETRYING
      { retryAt := some (some (now + calculateRetryDelay baseDelay job.attempts)) } _ hj1get
    have hmf : s.markJobFailed jobId msg now
        = (.ok (applyUpdates job .FAILED { error := some (some msg) }), s1) := by
      rw [keyf, if_neg (by omega)]
      exact heq1
    refine ⟨applyUpdates (applyUpdates job .FAILED { error := some (some msg) }) .RETRYING
      { retryAt := some (some (now + calculateRetryDelay baseDelay job.attempts)) },
      s2, ?_, rfl, rfl, rfl, rfl, rfl,
      fun _ => ⟨rfl, rfl⟩, fun hge => absurd hlt (by omega), ?_⟩
    · rw [key, if_pos hlt, hmf]
      exact heq2
    · intro k
      rw [hget2 k]
      by_cases hk : k = jobId
      · rw [if_pos hk, if_pos hk]
      · rw [if_neg hk, if_neg hk, hget1 k, if_neg hk]
  · obtain ⟨s1, heq1, hget1⟩ := updateJobStatus_spec s jobId .DEAD
      { finishedAt := some (some now), error := some (some msg) } job h
    have hmf : s.markJobFailed jobId msg now
        = (.ok (applyUpdates job .DEAD { finishedAt := some (some now), error := some (some msg) }), s1) := by
      rw [keyf, if_pos (by omega)]
      exact heq1
    refine ⟨applyUpdates job .DEAD { finishedAt := some (some now), error := some (some msg) },
      s1, ?_, rfl, rfl, rfl, rfl, rfl,
      fun hl => absurd hl hlt, fun _ => ⟨rfl, rfl⟩, hget1⟩
    rw [key, if_neg hlt]
    exact hmf

theorem createJob_ok_inv (s : JobStore) (newId : Nat) (ty pl : String) (ma now : Nat)
    (j : Job) (s' : JobStore)
    (h : QueueManager.createJob s newId ty pl ma now = (.ok j, s')) :
    j = newJob newId ty pl ma now ∧ s.jobs.length < s.maxQueueSize ∧
      ∀ k, s'.getJob k = if k = newId then some j else s.getJob k := by
  unfold QueueManager.createJob JobStore.createJob at h
  by_cases hfull : s.jobs.length ≥ s.maxQueueSize
  · rw [if_pos hfull] at h
    exact absurd (congrArg Prod.fst h) (by simp)
  · rw [if_neg hfull] at h
    have hj : Except.ok (newJob newId ty pl ma now) = (Except.ok j : Except QErr Job) :=
      congrArg Prod.fst h
    have hst : ({ s with
        jobs := insertEntry s.jobs newId (newJob newId ty pl ma now)
        byStatus := s.byStatus.set .PENDING (setAdd (s.byStatus.get .PENDING) newId) } : JobStore)
        = s' := congrArg Prod.snd h
    injection hj with hj
    refine ⟨hj.symm, by omega, ?_⟩
    intro k
    rw [← hst]
    simp only [JobStore.getJob]
    rw [lookupJob_insertEntry, hj]

/-! Preservation of the per-job invariant along the reachable states. -/

theorem step_preserves_StoreInv (s s' : JobStore) (hinv : StoreInv s) (hstep : Step s s') :
    StoreInv s' := by
  cases hstep with
  | create newId ty pl ma now j _ hfresh hma heq =>
    obtain ⟨hj, hroom, hget⟩ := createJob_ok_inv s newId ty pl ma now j s' heq
    intro k j' hk
    rw [hget k] at hk
    by_cases hkk : k = newId
    · rw [if_pos hkk] at hk
      injection hk with hk
      subst hk
      subst hj
      exact ⟨hma, Nat.zero_le _, fun _ => rfl, fun _ => hma, fun hd => nomatch hd⟩
    · rw [if_neg hkk] at hk
      exact hinv k j' hk
  | start jobId now job j _ hget0 hready heq =>
    have hns : job.status ≠ .RUNNING := by
      cases hready with
      | inl h1 => rw [h1]; decide
      | inr h1 => rw [h1]; decide
    obtain ⟨j0, s0, heq0, hst, hat, hsa, hma, hid, hca, hra, hfa, hget⟩ :=
      startJob_spec s jobId now job hget0 hns
    have hpair := heq.symm.trans heq0
    have hj0 : j0 = j := by
      have hfst := congrArg Prod.fst hpair
      injection hfst with hfst
      exact hfst.symm
    have hs0 : s0 = s' := (congrArg Prod.snd hpair).symm
    subst hj0 hs0
    intro k j' hk
    rw [hget k] at hk
    by_cases hkk : k = jobId
    · rw [if_pos hkk] at hk
      injection hk with hk
      subst hk
      obtain ⟨hi1, hi2, hi3, hi4, hi5⟩ := hinv jobId job hget0
      refine ⟨by rw [hma]; exact hi1, ?_, ?_, ?_, ?_⟩
      · rw [hat, hma]
        exact hi4 hready
      · intro hp
        rw [hst] at hp
        exact absurd hp (by decide)
      · intro hp
        rcases hp with hp | hp <;> rw [hst] at hp <;> exact absurd hp (by decide)
      · intro hd
        rw [hst] at hd
        exact absurd hd (by decide)
    · rw [if_neg hkk] at hk
      exact hinv k j' hk
  | complete jobId now job j _ hget0 hrun heq =>
    obtain ⟨j0, s0, heq0, hst, hfi, hat, hma, hget⟩ :=
      completeJob_spec s jobId now job hget0
    have hpair := heq.symm.trans heq0
    have hj0 : j0 = j := by
      have hfst := congrArg Prod.fst hpair
      injection hfst with hfst
      exact hfst.symm
    have hs0 : s0 = s' := (congrArg Prod.snd hpair).symm
    subst hj0 hs0
    intro k j' hk
    rw [hget k] at hk
    by_cases hkk : k = jobId
    · rw [if_pos hkk] at hk
      injection hk with hk
      subst hk
      obtain ⟨hi1, hi2, hi3, hi4, hi5⟩ := hinv jobId job hget0
      refine ⟨by rw [hma]; exact hi1, by rw [hat, hma]; exact hi2, ?_, ?_, ?_⟩
      · intro hp
        rw [hst] at hp
        exact absurd hp (by decide)
      · intro hp
        rcases hp with hp | hp <;> rw [hst] at hp <;> exact absurd hp (by decide)
      · intro hd
        rw [hst] at hd
        exact absurd hd (by decide)
    · rw [if_neg hkk] at hk
      exact hinv k j' hk
  | fail jobId msg now baseDelay job j _ hget0 hrun heq =>
    obtain ⟨j0, s0, heq0, hat, hma, hsa, hid, hca, hretry, hdead, hget⟩ :=
      failJob_spec s jobId msg now baseDelay job hget0
    have hpair := heq.symm.trans heq0
    have hj0 : j0 = j := by
      have hfst := congrArg Prod.fst hpair
      injection hfst with hfst
      exact hfst.symm
    have hs0 : s0 = s' := (congrArg Prod.snd hpair).symm
    subst hj0 hs0
    intro k j' hk
    rw [hget k] at hk
    by_cases hkk : k = jobId
    · rw [if_pos hkk] at hk
      injection hk with hk
      subst hk
      obtain ⟨hi1, hi2, hi3, hi4, hi5⟩ := hinv jobId job hget0
      by_cases hlt : job.attempts < job.maxAttempts
      · obtain ⟨hst, hra⟩ := hretry hlt
        refine ⟨by rw [hma]; exact hi1, by rw [hat, hma]; omega, ?_, ?_, ?_⟩
        · intro hp
          rw [hst] at hp
          exact absurd hp (by decide)
        · intro hp
          rw [hat, hma]
          exact hlt
        · intro hd
          rw [hst] at hd
          exact absurd hd (by decide)
      · obtain ⟨hst, hfi⟩ := hdead (by omega)
        refine ⟨by rw [hma]; exact hi1, by rw [hat, hma]; exact hi2, ?_, ?_, ?_⟩
        · intro hp
          rw [hst] at hp
          exact absurd hp (by decide)
        · intro hp
          rcases hp with hp | hp <;> rw [hst] at hp <;> exact absurd hp (by decide)
        · intro hd
          rw [hat, hma]
          omega
    · rw [if_neg hkk] at hk
      exact hinv k j' hk

theorem reachable_StoreInv (m : Nat) (s : JobStore) (h : Reachable m s) : StoreInv s := by
  induction h with
  | refl =>
    intro k j hk
    exact absurd hk (by simp [emptyStore, JobStore.getJob, lookupJob])
  | tail hab hbc ih => exact step_preserves_StoreInv _ _ ih hbc

/-! The scheduler's in-flight set keeps dispatches per id mutually exclusive. -/

theorem mem_setAdd_self (l : List Nat) (x : Nat) : x ∈ setAdd l x := by
  unfold setAdd
  by_cases h : x ∈ l
  · rw [if_pos h]
    exact h
  · rw [if_neg h]
    exact List.mem_append_right _ (List.mem_singleton_self x)

theorem mem_setAdd_of_mem (l : List Nat) (x y : Nat) (h : y ∈ l) : y ∈ setAdd l x := by
  unfold setAdd
  by_cases hx : x ∈ l
  · rw [if_pos hx]
    exact h
  · rw [if_neg hx]
    exact List.mem_append_left _ h

theorem mem_setDelete (l : List Nat) (x y : Nat) :
    y ∈ setDelete l x ↔ y ∈ l ∧ y ≠ x := by
  unfold setDelete
  rw [List.mem_filter]
  constructor
  · rintro ⟨h1, h2⟩
    exact ⟨h1, bne_iff_ne.mp h2⟩
  · rintro ⟨h1, h2⟩
    exact ⟨h1, bne_iff_ne.mpr h2⟩

theorem schedStep_preserves_SchedInv (σ σ' : SchedState) (hinv : SchedInv σ)
    (hstep : SchedStep σ σ') : SchedInv σ' := by
  cases hstep with
  | dispatchBegin _ jobId h =>
    obtain ⟨h1, h2⟩ := hinv
    constructor
    · intro p hp
      rcases List.mem_cons.mp hp with rfl | hp2
      · exact mem_setAdd_self _ _
      · exact mem_setAdd_of_mem _ _ _ (h1 p hp2)
    · have hmapeq : ((jobId, DPhase.exec) :: σ.dispatches).map Prod.fst
          = jobId :: σ.dispatches.map Prod.fst := rfl
      rw [hmapeq]
      refine List.nodup_cons.mpr ⟨?_, h2⟩
      intro hmem
      obtain ⟨p, hp, hfst⟩ := List.mem_map.mp hmem
      refine h ?_
      have hpa := h1 p hp
      rw [hfst] at hpa
      exact hpa
  | dispatchSettle active l r jobId =>
    obtain ⟨h1, h2⟩ := hinv
    constructor
    · intro p hp
      rcases List.mem_append.mp hp with hp2 | hp2
      · exact h1 p (List.mem_append_left _ hp2)
      · rcases List.mem_cons.mp hp2 with rfl | hp3
        · exact h1 (jobId, DPhase.exec)
            (List.mem_append_right _ (List.mem_cons_self _ _))
        · exact h1 p (List.mem_append_right _ (List.mem_cons_of_mem _ hp3))
    · have hmapeq : (l ++ (jobId, DPhase.settled) :: r).map Prod.fst
          = (l ++ (jobId, DPhase.exec) :: r).map Prod.fst := by
        simp [List.map_append]
      rw [hmapeq]
      exact h2
  | dispatchFinish active l r jobId =>
    obtain ⟨h1, h2⟩ := hinv
    rw [List.map_append] at h2
    have h2x : (l.map Prod.fst ++ jobId :: r.map Prod.fst).Nodup := h2
    obtain ⟨hA, hxB, hdisj⟩ := List.nodup_append.mp h2x
    obtain ⟨hxnotB, hB⟩ := List.nodup_cons.mp hxB
    have hxnotA : jobId ∉ l.map Prod.fst :=
      fun hmem => hdisj hmem (List.mem_cons_self _ _)
    constructor
    · intro p hp
      have hpold : p ∈ l ++ (jobId, DPhase.settled) :: r := by
        rcases List.mem_append.mp hp with hp2 | hp2
        · exact List.mem_append_left _ hp2
        · exact List.mem_append_right _ (List.mem_cons_of_mem _ hp2)
      have hmemact := h1 p hpold
      have hpne : p.1 ≠ jobId := by
        intro hpe
        rcases List.mem_append.mp hp with hp2 | hp2
        · refine hxnotA ?_
          rw [← hpe]
          exact List.mem_map_of_mem Prod.fst hp2
        · refine hxnotB ?_
          rw [← hpe]
          exact List.mem_map_of_mem Prod.fst hp2
      exact (mem_setDelete _ _ _).mpr ⟨hmemact, hpne⟩
    · rw [List.map_append]
      exact List.nodup_append.mpr
        ⟨hA, hB, fun a ha hb => hdisj ha (List.mem_cons_of_mem _ hb)⟩

theorem schedReachable_SchedInv (σ : SchedState) (h : SchedReachable σ) : SchedInv σ := by
  induction h with
  | refl => exact ⟨fun p hp => absurd hp (List.not_mem_nil p), List.nodup_nil⟩
  | tail hab hbc ih => exact schedStep_preserves_SchedInv _ _ ih hbc

/-! Characterisation of the ready set on well-formed stores. -/

theorem mem_getJobsByStatus (s : JobStore) (hwf : WFStore s) (st : Status)
    (hst : st ∈ allStatuses) (j : Job) :
    j ∈ s.getJobsByStatus st ↔ s.getJob j.id = some j ∧ j.status = st := by
  obtain ⟨hid, hbucket, hinbucket⟩ := hwf
  unfold JobStore.getJobsByStatus
  rw [List.mem_filterMap]
  constructor
  · rintro ⟨id, hidmem, hgot⟩
    have hmap := hbucket st hst id hidmem
    rw [hgot] at hmap
    have hmap2 : some j.status = some st := hmap
    injection hmap2 with hmap2
    have hmem := lookupJob_mem s.jobs id j hgot
    have hjid : j.id = id := hid (id, j) hmem
    constructor
    · show s.getJob j.id = some j
      rw [hjid]
      exact hgot
    · exact hmap2
  · rintro ⟨hget, hstat⟩
    refine ⟨j.id, ?_, hget⟩
    have hmem := lookupJob_mem s.jobs j.id j hget
    have hbmem : j.id ∈ s.byStatus.get j.status := hinbucket (j.id, j) hmem
    rw [hstat] at hbmem
    exact hbmem

theorem retryEligible_iff (now : Nat) (j : Job) (hpos : 0 < j.retryAt.getD 0) :
    retryEligible now j = true ↔ ∃ t, j.retryAt = some t ∧ t ≤ now := by
  unfold retryEligible
  cases hra : j.retryAt with
  | none =>
    rw [hra] at hpos
    exact absurd hpos (by decide)
  | some t =>
    rw [hra] at hpos
    have hpt : 0 < t := hpos
    constructor
    · intro hb
      obtain ⟨hb1, hb2⟩ := Bool.and_eq_true_iff.mp hb
      exact ⟨t, rfl, of_decide_eq_true hb2⟩
    · rintro ⟨t2, ht2, hle⟩
      injection ht2 with ht2
      subst ht2
      refine Bool.and_eq_true_iff.mpr ⟨?_, decide_eq_true hle⟩
      exact bne_iff_ne.mpr (by omega)

/-! The claims. -/

/-- C1 (counterexample): in `c8s3` job 1 has `attempts = 1 < maxAttempts`;
`failJob` at `now = 11` with base 1000 sets `retryAt = 11 + 1000 * 2 ^ 1
= 2011`, not `11 + 1000 * 2 ^ (1-1) = 1011` as the claimed backoff law
`B * 2 ^ (n-1)` would require. -/
theorem C1_counterexample :
    ((QueueManager.failJob c8s3 1 "smtp timeout" 11 1000).1.toOption.map Job.retryAt)
        = some (some (11 + 1000 * 2 ^ 1)) ∧
    (11 + 1000 * 2 ^ 1 : Nat) ≠ 11 + 1000 * 2 ^ (1 - 1) :=
  ⟨by decide, by decide⟩

/-- C1 (amended): when a failure is reported for a job with `n = attempts`
recorded failures and `n < maxAttempts`, `failJob` computes the retry delay
as `base * 2 ^ n` (one doubling more than the claimed `base * 2 ^ (n-1)`)
and sets `retryAt = now + base * 2 ^ n`, moving the job to RETRYING. -/
theorem C1_amended_backoff_delay (s : JobStore) (jobId : Nat) (msg : String)
    (now baseDelay : Nat) (job : Job)
    (h : s.getJob jobId = some job) (hlt : job.attempts < job.maxAttempts) :
    ∃ j' s', QueueManager.failJob s jobId msg now baseDelay = (.ok j', s') ∧
      j'.status = .RETRYING ∧
      j'.retryAt = some (now + baseDelay * 2 ^ job.attempts) := by
  obtain ⟨j', s', heq, hat, hmax, hsa, hid, hca, hretry, hdead, hget⟩ :=
    failJob_spec s jobId msg now baseDelay job h
  obtain ⟨hst, hra⟩ := hretry hlt
  exact ⟨j', s', heq, hst, hra⟩

/-- C1 (witness): the amended law evaluated on the concrete scenario store. -/
theorem C1_amended_backoff_delay_witness :
    ∃ j' s', QueueManager.failJob c8s3 1 "smtp timeout" 11 1000 = (.ok j', s') ∧
      j'.status = .RETRYING ∧
      j'.retryAt = some (11 + 1000 * 2 ^ c2jobRunning.attempts) :=
  C1_amended_backoff_delay c8s3 1 "smtp timeout" 11 1000 c2jobRunning
    (by decide) (by decide)

/-- C2: for every job present in the store, `failJob` succeeds and leaves the
job in exactly one of two states: RETRYING (with `retryAt` set to
`now + delay`) precisely when `attempts < maxAttempts` at the time of the
call, and DEAD precisely otherwise; the two branches are mutually exclusive
(a status equals RETRYING iff it does not take the DEAD branch). -/
theorem C2_failJob_branches (s : JobStore) (jobId : Nat) (msg : String)
    (now baseDelay : Nat) (job : Job) (h : s.getJob jobId = some job) :
    ∃ j' s', QueueManager.failJob s jobId msg now baseDelay = (.ok j', s') ∧
      s'.getJob jobId = some j' ∧
      (j'.status = .RETRYING ↔ job.attempts < job.maxAttempts) ∧
      (j'.status = .DEAD ↔ job.maxAttempts ≤ job.attempts) ∧
      (job.attempts < job.maxAttempts →
        j'.retryAt = some (now + baseDelay * 2 ^ job.attempts)) := by
  obtain ⟨j', s', heq, hat, hmax, hsa, hid, hca, hretry, hdead, hget⟩ :=
    failJob_spec s jobId msg now baseDelay job h
  refine ⟨j', s', heq, ?_, ?_, ?_, fun hlt => (hretry hlt).2⟩
  · rw [hget jobId, if_pos rfl]
  · constructor
    · intro hst
      by_cases hlt : job.attempts < job.maxAttempts
      · exact hlt
      · obtain ⟨hd, _⟩ := hdead (by omega)
        rw [hst] at hd
        exact absurd hd (by decide)
    · intro hlt
      exact (hretry hlt).1
  · constructor
    · intro hst
      by_cases hlt : job.attempts < job.maxAttempts
      · obtain ⟨hr, _⟩ := hretry hlt
        rw [hst] at hr
        exact absurd hr (by decide)
      · omega
    · intro hge
      exact (hdead hge).1

/-- C2 (witness): the branch dichotomy evaluated on the concrete RUNNING
job of the scenario store. -/
theorem C2_failJob_branches_witness :
    ∃ j' s', QueueManager.failJob c8s3 1 "smtp timeout" 11 1000 = (.ok j', s') ∧
      s'.getJob 1 = some j' ∧
      (j'.status = Status.RETRYING ↔ c2jobRunning.attempts < c2jobRunning.maxAttempts) ∧
      (j'.status = Status.DEAD ↔ c2jobRunning.maxAttempts ≤ c2jobRunning.attempts) ∧
      (c2jobRunning.attempts < c2jobRunning.maxAttempts →
        j'.retryAt = some (11 + 1000 * 2 ^ c2jobRunning.attempts)) :=
  C2_failJob_branches c8s3 1 "smtp timeout" 11 1000 c2jobRunning (by decide)

/-- C3 (counterexample): `c3sDead` holds a DEAD (terminal) job, yet
`completeJob` on it succeeds and rewrites the status to COMPLETED, and
`failJob` on it also succeeds (returning the DEAD branch) — neither call
fails with a predictable error, and the status does not stay unchanged. -/
theorem C3_counterexample :
    (c3sDead.getJob 1).map Job.status = some Status.DEAD ∧
    ((QueueManager.completeJob c3sDead 1 100).1.toOption.map Job.status)
        = some Status.COMPLETED ∧
    ((QueueManager.failJob c3sDead 1 "again" 100 1000).1.toOption.isSome = true) :=
  ⟨by decide, by decide, by decide⟩

/-- C3 (amended): the store enforces no terminal-state guard: for every job
present in the store — including one already COMPLETED or DEAD —
`completeJob` succeeds and moves it to COMPLETED (setting `finishedAt`), and
`failJob` succeeds and moves it to RETRYING or DEAD according to the
attempts check.  Terminal states admit further transitions. -/
theorem C3_amended_terminal_transitions (s : JobStore) (jobId now baseDelay : Nat)
    (msg : String) (job : Job) (h : s.getJob jobId = some job) :
    (∃ j' s', QueueManager.completeJob s jobId now = (.ok j', s') ∧
      j'.status = .COMPLETED ∧ j'.finishedAt = some now) ∧
    (∃ j' s', QueueManager.failJob s jobId msg now baseDelay = (.ok j', s') ∧
      (j'.status = .RETRYING ∨ j'.status = .DEAD)) := by
  constructor
  · obtain ⟨j', s', heq, hst, hfi, _, _, _⟩ := completeJob_spec s jobId now job h
    exact ⟨j', s', heq, hst, hfi⟩
  · obtain ⟨j', s', heq, _, _, _, _, _, hretry, hdead, _⟩ :=
      failJob_spec s jobId msg now baseDelay job h
    by_cases hlt : job.attempts < job.maxAttempts
    · exact ⟨j', s', heq, Or.inl (hretry hlt).1⟩
    · exact ⟨j', s', heq, Or.inr (hdead (by omega)).1⟩

/-- C3 (witness): the amended behaviour evaluated on the DEAD job. -/
theorem C3_amended_terminal_transitions_witness :
    (∃ j' s', QueueManager.completeJob c3sDead 1 100 = (.ok j', s') ∧
      j'.status = .COMPLETED ∧ j'.finishedAt = some 100) ∧
    (∃ j' s', QueueManager.failJob c3sDead 1 "again" 100 1000 = (.ok j', s') ∧
      (j'.status = .RETRYING ∨ j'.status = .DEAD)) :=
  C3_amended_terminal_transitions c3sDead 1 100 1000 "again" c3deadJob (by decide)

/-- C4: in every store reachable by the system's operations (createJob with a
fresh id and positive maxAttempts, and scheduler-driven startJob /
completeJob / failJob), every job satisfies `attempts ≤ maxAttempts`, and
every DEAD job satisfies `attempts = maxAttempts`. -/
theorem C4_attempts_invariant (m : Nat) (s : JobStore) (h : Reachable m s)
    (k : Nat) (j : Job) (hj : s.getJob k = some j) :
    j.attempts ≤ j.maxAttempts ∧
      (j.status = Status.DEAD → j.attempts = j.maxAttempts) := by
  obtain ⟨_, h2, _, _, h5⟩ := reachable_StoreInv m s h k j hj
  exact ⟨h2, h5⟩

/-- C4 (witness): the invariant evaluated on the store reached by one
`createJob` step from the empty store. -/
theorem C4_attempts_invariant_witness :
    w4job.attempts ≤ w4job.maxAttempts ∧
      (w4job.status = Status.DEAD → w4job.attempts = w4job.maxAttempts) :=
  C4_attempts_invariant 10 w4store
    (Relation.ReflTransGen.single
      (Step.create (emptyStore 10) 1 "SEND_EMAIL" "payload-w" 3 5 w4job w4store
        (by decide) (by decide) (by decide)))
    1 w4job (by decide)

/-- C5: in every reachable scheduler state, at most one dispatch is in
progress per job id: every id occurs at most once among the in-progress
dispatches, because `poll` skips ids in `activeExecutions`, an id is added
to the set before `startJob`, and it is removed only after `completeJob` /
`failJob` resolves (in the `finally` block). -/
theorem C5_at_most_one_dispatch (σ : SchedState) (h : SchedReachable σ) (jobId : Nat) :
    (σ.dispatches.map Prod.fst).count jobId ≤ 1 := by
  have hinv := schedReachable_SchedInv σ h
  exact List.nodup_iff_count_le_one.mp hinv.2 jobId

/-- C5 (witness): the bound evaluated after one dispatch has begun. -/
theorem C5_at_most_one_dispatch_witness :
    (w5state.dispatches.map Prod.fst).count 5 ≤ 1 :=
  C5_at_most_one_dispatch w5state
    (Relation.ReflTransGen.single (SchedStep.dispatchBegin ⟨[], []⟩ 5 (by decide)))
    5

/-- C6: on any store holding at most `maxQueueSize` jobs (an invariant, since
jobs are never removed and insertion is guarded), `createJob` fails with
QUEUE_FULL exactly when the job count equals `maxQueueSize`; on that failure
the store is returned unchanged (nothing is inserted), and otherwise the
call succeeds. -/
theorem C6_queue_full (s : JobStore) (newId : Nat) (ty pl : String) (ma now : Nat)
    (hle : s.jobs.length ≤ s.maxQueueSize) :
    ((QueueManager.createJob s newId ty pl ma now).1 = .error .queueFull
        ↔ s.jobs.length = s.maxQueueSize) ∧
    (s.jobs.length = s.maxQueueSize →
      QueueManager.createJob s newId ty pl ma now = (.error .queueFull, s)) ∧
    (s.jobs.length ≠ s.maxQueueSize →
      ∃ j, (QueueManager.createJob s newId ty pl ma now).1 = .ok j) := by
  unfold QueueManager.createJob JobStore.createJob
  by_cases hfull : s.jobs.length ≥ s.maxQueueSize
  · rw [if_pos hfull]
    exact ⟨⟨fun _ => by omega, fun _ => rfl⟩, fun _ => rfl,
      fun hne => absurd (by omega) hne⟩
  · rw [if_neg hfull]
    refine ⟨⟨fun hcontra => ?_, fun heqq => absurd heqq (by omega)⟩,
      fun heqq => absurd heqq (by omega), fun _ => ⟨newJob newId ty pl ma now, rfl⟩⟩
    exact absurd hcontra (by simp)

/-- C6 (witness): evaluated on a store at capacity (the empty store with
`maxQueueSize = 0`). -/
theorem C6_queue_full_witness :
    ((QueueManager.createJob (emptyStore 0) 7 "SEND_EMAIL" "p" 3 9).1
        = .error .queueFull
      ↔ (emptyStore 0).jobs.length = (emptyStore 0).maxQueueSize) ∧
    ((emptyStore 0).jobs.length = (emptyStore 0).maxQueueSize →
      QueueManager.createJob (emptyStore 0) 7 "SEND_EMAIL" "p" 3 9
        = (.error .queueFull, emptyStore 0)) ∧
    ((emptyStore 0).jobs.length ≠ (emptyStore 0).maxQueueSize →
      ∃ j, (QueueManager.createJob (emptyStore 0) 7 "SEND_EMAIL" "p" 3 9).1 = .ok j) :=
  C6_queue_full (emptyStore 0) 7 "SEND_EMAIL" "p" 3 9 (by decide)

/-- C7: on a well-formed store (jobs in exactly their status bucket, RETRYING
jobs carrying a positive `retryAt` — both invariants of the reachable
states), `readyForExecution` returns exactly the union of the PENDING jobs
and the RETRYING jobs with `retryAt ≤ now`; in particular it never returns a
RUNNING, COMPLETED, DEAD or FAILED job, nor a RETRYING job whose `retryAt`
has not elapsed. -/
theorem C7_ready_exact (s : JobStore) (now : Nat) (hwf : WFStore s)
    (hpos : RetryTimesPos s) (j : Job) :
    j ∈ s.getJobsReadyForExecution now ↔
      s.getJob j.id = some j ∧
        (j.status = .PENDING ∨
          (j.status = .RETRYING ∧ ∃ t, j.retryAt = some t ∧ t ≤ now)) := by
  unfold JobStore.getJobsReadyForExecution
  rw [List.mem_append, List.mem_filter,
    mem_getJobsByStatus s hwf .PENDING (by decide) j,
    mem_getJobsByStatus s hwf .RETRYING (by decide) j]
  constructor
  · rintro (⟨hg, hs⟩ | ⟨⟨hg, hs⟩, helig⟩)
    · exact ⟨hg, Or.inl hs⟩
    · have hposj : 0 < j.retryAt.getD 0 := hpos (j.id, j) (lookupJob_mem _ _ _ hg) hs
      exact ⟨hg, Or.inr ⟨hs, (retryEligible_iff now j hposj).mp helig⟩⟩
  · rintro ⟨hg, hs | ⟨hs, ht⟩⟩
    · exact Or.inl ⟨hg, hs⟩
    · have hposj : 0 < j.retryAt.getD 0 := hpos (j.id, j) (lookupJob_mem _ _ _ hg) hs
      exact Or.inr ⟨⟨hg, hs⟩, (retryEligible_iff now j hposj).mpr ht⟩

/-- C7 (witness): membership characterisation evaluated for the PENDING job
of the scenario store. -/
theorem C7_ready_exact_witness :
    c8jobPending ∈ c8s4.getJobsReadyForExecution 5000 ↔
      c8s4.getJob c8jobPending.id = some c8jobPending ∧
        (c8jobPending.status = .PENDING ∨
          (c8jobPending.status = .RETRYING ∧
            ∃ t, c8jobPending.retryAt = some t ∧ t ≤ 5000)) :=
  C7_ready_exact c8s4 5000 (by decide) (by decide) c8jobPending

/-- C8 (counterexample): in `c8s4` the RETRYING job 1 was created at time 0
and the PENDING job 2 at time 5, yet `readyForExecution` returns
`[job 2, job 1]` (createdAt `[5, 0]`): the whole result is NOT in FIFO order
by `createdAt`. -/
theorem C8_counterexample :
    fifoOrdered (c8s4.getJobsReadyForExecution 9999) = false ∧
    (c8s4.getJobsReadyForExecution 9999).map Job.createdAt = [5, 0] :=
  ⟨by decide, by decide⟩

/-- C8 (amended): `readyForExecution` applies no `createdAt` sort and no id
tie-break: the result is the concatenation of all PENDING jobs (in PENDING
bucket insertion order) followed by all eligible RETRYING jobs (in RETRYING
bucket insertion order); only within each segment, and not across segments,
does any ordering discipline hold. -/
theorem C8_amended_ready_order (s : JobStore) (now : Nat) (hwf : WFStore s) :
    ∃ ps rs, s.getJobsReadyForExecution now = ps ++ rs ∧
      ps = s.getJobsByStatus .PENDING ∧
      rs = (s.getJobsByStatus .RETRYING).filter (retryEligible now) ∧
      (∀ j ∈ ps, (j : Job).status = .PENDING) ∧
      (∀ j ∈ rs, (j : Job).status = .RETRYING) := by
  refine ⟨_, _, rfl, rfl, rfl, ?_, ?_⟩
  · intro j hj
    exact ((mem_getJobsByStatus s hwf .PENDING (by decide) j).mp hj).2
  · intro j hj
    have hj2 := (List.mem_filter.mp hj).1
    exact ((mem_getJobsByStatus s hwf .RETRYING (by decide) j).mp hj2).2

/-- C8 (witness): the concatenation structure evaluated on the scenario
store. -/
theorem C8_amended_ready_order_witness :
    ∃ ps rs, c8s4.getJobsReadyForExecution 5000 = ps ++ rs ∧
      ps = c8s4.getJobsByStatus .PENDING ∧
      rs = (c8s4.getJobsByStatus .RETRYING).filter (retryEligible 5000) ∧
      (∀ j ∈ ps, (j : Job).status = .PENDING) ∧
      (∀ j ∈ rs, (j : Job).status = .RETRYING) :=
  C8_amended_ready_order c8s4 5000 (by decide)

/-- C9 (counterexample): in `c8s4` job 1 carries `startedAt = some 10` from
its first start; starting it again at time 50 overwrites `startedAt` to
`some 50` — the field is not preserved across retries. -/
theorem C9_counterexample :
    (c8s4.getJob 1).map Job.startedAt = some (some 10) ∧
    ((QueueManager.startJob c8s4 1 50).1.toOption.map Job.startedAt)
        = some (some 50) ∧
    (some (some 50) : Option (Option Nat)) ≠ some (some 10) :=
  ⟨by decide, by decide, by decide⟩

/-- C9 (amended): `startJob` writes `startedAt := now` on EVERY transition to
RUNNING: a retry overwrites the field with the latest start time
(most-recent-start semantics), while also incrementing `attempts`. -/
theorem C9_amended_startedAt_overwritten (s : JobStore) (jobId now : Nat) (job : Job)
    (h : s.getJob jobId = some job) (hs : job.status ≠ Status.RUNNING) :
    ∃ j' s', QueueManager.startJob s jobId now = (.ok j', s') ∧
      j'.startedAt = some now ∧ j'.attempts = job.attempts + 1 := by
  obtain ⟨j', s', heq, hst, hat, hsa, _, _, _, _, _, _⟩ :=
    startJob_spec s jobId now job h hs
  exact ⟨j', s', heq, hsa, hat⟩

/-- C9 (witness): restarting the RETRYING job of the scenario store at time
50 overwrites its `startedAt`. -/
theorem C9_amended_startedAt_overwritten_witness :
    ∃ j' s', QueueManager.startJob c8s4 1 50 = (.ok j', s') ∧
      j'.startedAt = some 50 ∧ j'.attempts = c9jobBefore.attempts + 1 :=
  C9_amended_startedAt_overwritten c8s4 1 50 c9jobBefore (by decide) (by decide)

/-- C10: for an id absent from the store, `startJob` does not throw the
store's `Job ... not found` error: the `isJobRunning` guard passes (a missing
job is not RUNNING), and `markJobStarted` dereferences the null result of
`getJob` to read `attempts`, throwing a TypeError before `updateJobStatus`'s
not-found check is reached; the store is left unchanged. -/
theorem C10_startJob_missing_type_error (s : JobStore) (jobId now : Nat)
    (h : s.getJob jobId = none) :
    QueueManager.startJob s jobId now = (.error .typeError, s) ∧
    QErr.typeError ≠ QErr.jobNotFound jobId := by
  constructor
  · have hrun : s.isJobRunning jobId = false := by
      unfold JobStore.isJobRunning
      rw [h]
    unfold QueueManager.startJob
    rw [hrun]
    show s.markJobStarted jobId now = _
    unfold JobStore.markJobStarted
    rw [h]
  · intro hcontra
    exact QErr.noConfusion hcontra

/-- C10 (witness): evaluated on an empty store and an unknown id. -/
theorem C10_startJob_missing_type_error_witness :
    QueueManager.startJob (emptyStore 3) 42 7 = (.error QErr.typeError, emptyStore 3) ∧
    QErr.typeError ≠ QErr.jobNotFound 42 :=
  C10_startJob_missing_type_error (emptyStore 3) 42 7 (by decide)

end JobQueue
